/-
  Verification of the Limbo LP-coloring core (LPColoring.h) and the
  dual min-cost-flow solver adapters (DualMinCostFlow.h).

  The C++ sources are shallowly embedded: doubles become rationals,
  the Gurobi variable/constraint state becomes explicit data, and the
  imperative loops become structural recursions or fuel-indexed steps.
-/
import Mathlib

/-! ## Shared data model -/

/-- Color-count mode of the `Coloring` base class (`base_type::THREE` /
`base_type::FOUR`). -/
inductive ColorNum where
  | THREE
  | FOUR
deriving DecidableEq, Repr

/-- `is_integer` from `LPColoring.h`: `value == floor(value)`. -/
def is_integer (value : ℚ) : Bool := decide (value = (⌊value⌋ : ℚ))

/-- C library `round` (half away from zero), applied to rationals.
Models the `round` call in `LPColoring::apply_solution`. -/
def cround (x : ℚ) : ℤ := if x < 0 then -⌊-x + 1/2⌋ else ⌊x + 1/2⌋

/-! ## Model builder (`LPColoring::set_optimize_model`)

The four per-edge cover constraints, lines 294-315 of `LPColoring.h`.
`s1 s2` are the color bits of the source vertex, `t1 t2` of the target. -/

/-- Left-hand side of the first cover constraint
`vColorBits[bitIdxS] + vColorBits[bitIdxS+1] + vColorBits[bitIdxT] + vColorBits[bitIdxT+1] >= 1`. -/
def coverLHS1 (s1 s2 t1 t2 : ℚ) : ℚ := s1 + s2 + t1 + t2

/-- Left-hand side of the second cover constraint
`1 - vColorBits[bitIdxS] + vColorBits[bitIdxS+1] + 1 - vColorBits[bitIdxT] + vColorBits[bitIdxT+1] >= 1`. -/
def coverLHS2 (s1 s2 t1 t2 : ℚ) : ℚ := 1 - s1 + s2 + (1 - t1) + t2

/-- Left-hand side of the third cover constraint
`vColorBits[bitIdxS] + 1 - vColorBits[bitIdxS+1] + vColorBits[bitIdxT] + 1 - vColorBits[bitIdxT+1] >= 1`. -/
def coverLHS3 (s1 s2 t1 t2 : ℚ) : ℚ := s1 + (1 - s2) + t1 + (1 - t2)

/-- Left-hand side of the fourth cover constraint
`1 - vColorBits[bitIdxS] + 1 - vColorBits[bitIdxS+1] + 1 - vColorBits[bitIdxT] + 1 - vColorBits[bitIdxT+1] >= 1`. -/
def coverLHS4 (s1 s2 t1 t2 : ℚ) : ℚ := 1 - s1 + (1 - s2) + (1 - t1) + (1 - t2)

/-- The four cover constraints of one conflict edge `(s, t)`, as satisfied
by an assignment `x` of the color-bit variables (`x (2*v)` and `x (2*v+1)`
are the two bits of vertex `v`). -/
def edgeCoverSat (x : ℕ → ℚ) (s t : ℕ) : Prop :=
  1 ≤ coverLHS1 (x (2*s)) (x (2*s+1)) (x (2*t)) (x (2*t+1)) ∧
  1 ≤ coverLHS2 (x (2*s)) (x (2*s+1)) (x (2*t)) (x (2*t+1)) ∧
  1 ≤ coverLHS3 (x (2*s)) (x (2*s+1)) (x (2*t)) (x (2*t+1)) ∧
  1 ≤ coverLHS4 (x (2*s)) (x (2*s+1)) (x (2*t)) (x (2*t+1))

/-- The per-vertex constraints `vColorBits[k] + vColorBits[k+1] <= 1`
emitted only when `color_num() == THREE` (lines 318-327). -/
def vertexThreeSat (cn : ColorNum) (n : ℕ) (x : ℕ → ℚ) : Prop :=
  match cn with
  | ColorNum.THREE => ∀ v < n, x (2*v) + x (2*v+1) ≤ 1
  | ColorNum.FOUR => True

/-- A solution of the LP model built by `set_optimize_model` for a graph
with `n` vertices and edge list `edges`: the `[0,1]` variable bounds from
`addVar(0.0, 1.0, ...)`, the four cover constraints of every edge, and the
per-vertex `b1 + b2 <= 1` constraints in THREE mode. -/
def modelConstraintsSat (cn : ColorNum) (n : ℕ) (edges : List (ℕ × ℕ))
    (x : ℕ → ℚ) : Prop :=
  (∀ i < 2*n, 0 ≤ x i ∧ x i ≤ 1) ∧
  (∀ e ∈ edges, edgeCoverSat x e.1 e.2) ∧
  vertexThreeSat cn n x

/-! ## Applier (`LPColoring::apply_solution`) -/

/-- `apply_solution` for one vertex `i`: round both bits and compose
`(b1 << 1) + b2`. -/
def apply_solution_color (x : ℕ → ℚ) (i : ℕ) : ℤ :=
  2 * cround (x (2*i)) + cround (x (2*i+1))

/-! ## Objective adjustment (`LPColoring::adjust_variable_pair_in_objective`)

The contribution of one color-bit pair to the objective is recorded as the
pair of coefficient deltas added on `vColorBits[k]` and `vColorBits[k+1]`:
`obj += vColorBits[k+1] - vColorBits[k]` is `(-1, 1)`, and
`obj += vColorBits[k] - vColorBits[k+1]` is `(1, -1)`. -/

/-- Per-pair objective adjustment, lines 353-361 of `LPColoring.h`. -/
def adjustPair (value1 value2 : ℚ) : ℚ × ℚ :=
  if !(is_integer value1) || !(is_integer value2) then
    if value1 > value2 then (-1, 1)
    else if value1 < value2 then (1, -1)
    else (0, 0)
  else (0, 0)

/-- The loop of `adjust_variable_pair_in_objective`: walk the color bits
two at a time and collect each pair's objective contribution. -/
def adjust_variable_pair_in_objective : List ℚ → List (ℚ × ℚ)
  | value1 :: value2 :: rest =>
      adjustPair value1 value2 :: adjust_variable_pair_in_objective rest
  | _ => []

/-! ## Non-integer census (`LPColoring::non_integer_num`) and loop guards -/

/-- `non_integer_num` over one variable array, lines 691-706: count the
values that are neither `0.0` nor `1.0`. -/
def non_integer_count (vals : List ℚ) : ℕ :=
  vals.countP (fun value => if value ≠ 0 ∧ value ≠ 1 then true else false)

/-- `std::numeric_limits<uint32_t>::max()`, the value a fresh
`NonIntegerInfo` holds (lines 54-59). -/
def UINT32_MAX : ℕ := 4294967295

/-- The `prevInfo.vertex_non_integer_num` seen by the guard before
iteration `k`: the initial sentinel for `k = 0`, afterwards the census of
the previous iteration (`prevInfo = curInfo` at the end of the body). `f k`
is the list of vertex-bit values after the `k`-th re-optimization. -/
def prevCensus (f : ℕ → List ℚ) : ℕ → ℕ
  | 0 => UINT32_MAX
  | k+1 => non_integer_count (f k)

/-- Guard of the iterative-refinement loop in `coloring()`, line 465:
`curInfo.vertex_non_integer_num > 0 && curInfo.vertex_non_integer_num <
prevInfo.vertex_non_integer_num`. -/
def coloring_loop_guard (f : ℕ → List ℚ) (k : ℕ) : Prop :=
  0 < non_integer_count (f k) ∧ non_integer_count (f k) < prevCensus f k

/-- Guard of the loop in `rounding_with_binding_analysis`, line 526 (same
shape as the guard of `coloring()`). -/
def rounding_loop_guard (f : ℕ → List ℚ) (k : ℕ) : Prop :=
  0 < non_integer_count (f k) ∧ non_integer_count (f k) < prevCensus f k

/-! ## Odd-cycle detector (`LPColoring::get_odd_cycles`)

The conflict graph is embedded as an adjacency-list vector: `adj.getD u []`
is the neighbor sequence the `adjacent_vertices` iterator yields for `u`. -/

/-- Adjacency-list view of `this->m_graph`. -/
structure ConflictGraph where
  adj : List (List ℕ)
deriving DecidableEq, Repr

/-- Neighbor list of a vertex. -/
def adjOf (g : ConflictGraph) (u : ℕ) : List ℕ := g.adj.getD u []

/-- `boost::num_vertices(this->m_graph)`. -/
def numVertices (g : ConflictGraph) : ℕ := g.adj.length

/-- Edge endpoints are distinct: no vertex appears in its own neighbor
list. -/
def NoSelfLoop (g : ConflictGraph) : Prop :=
  ∀ u < g.adj.length, u ∉ g.adj.getD u []

/-- The mutable state of the DFS in `get_odd_cycles`: the explicit stack
`vVertexStack` (head is the `back()` of the vector), `vNodeDistColor`,
`vNodeVisited`, `vInCycle` and the accumulated `vOddCyle` output. -/
structure DfsState where
  stack : List ℕ
  dist : ℕ → ℤ
  visited : ℕ → Bool
  inCycle : ℕ → Bool
  cycles : List (List ℕ)

/-- State at the start of the while loop (lines 152-168): all distances
`-1` and the root pushed with distance `0` and visited flag set. -/
def initDfs (v : ℕ) : DfsState :=
  { stack := [v]
  , dist := fun x => if x = v then 0 else -1
  , visited := fun x => decide (x = v)
  , inCycle := fun _ => false
  , cycles := [] }

/-- The cycle-tracing loop of lines 207-213: walk the stack from the top
down, collecting vertices until `u` (inclusive). -/
def traceCycle (u : ℕ) : List ℕ → List ℕ
  | [] => []
  | x :: xs => if x = u then [x] else x :: traceCycle u xs

/-- The odd-cycle detection loop over the neighbors of the stack top `cv`
(lines 196-221), carrying the `vInCycle` array and the output list. -/
def detectCyclesAt (v cv : ℕ) (stack : List ℕ) (dist : ℕ → ℤ)
    (visited : ℕ → Bool) :
    List ℕ → ((ℕ → Bool) × List (List ℕ)) → ((ℕ → Bool) × List (List ℕ))
  | [], st => st
  | u :: us, st =>
    if visited u && (dist u == dist cv) then
      let inCyc1 : ℕ → Bool := fun x => if x = v then true else st.1 x
      let cycle := traceCycle u stack
      let inCyc2 : ℕ → Bool := fun x => if cycle.contains x then true else inCyc1 x
      let cycs2 := if !cycle.isEmpty && inCyc2 v then st.2 ++ [cycle] else st.2
      detectCyclesAt v cv stack dist visited us (inCyc2, cycs2)
    else
      detectCyclesAt v cv stack dist visited us st

/-- One iteration of the `while (!vVertexStack.empty())` loop of
`get_odd_cycles` (lines 169-227). The push branch keeps the faithful double
write `vNodeDistColor[u] = 1 - vNodeDistColor[cv]; vNodeDistColor[u] = true`
of lines 184-185 (the second write stores the integer value `1`). -/
def dfsStep (g : ConflictGraph) (v : ℕ) (s : DfsState) : DfsState :=
  match s.stack with
  | [] => s
  | cv :: rest =>
    match (adjOf g cv).find? (fun u => s.dist u == -1) with
    | some u =>
        let dist1 : ℕ → ℤ := fun x => if x = u then 1 - s.dist cv else s.dist x
        let dist2 : ℕ → ℤ := fun x => if x = u then 1 else dist1 x
        { s with dist := dist2, stack := u :: s.stack }
    | none =>
        let st := detectCyclesAt v cv s.stack s.dist s.visited (adjOf g cv)
          (s.inCycle, s.cycles)
        { stack := rest
        , dist := s.dist
        , visited := fun x => if x = cv then false else s.visited x
        , inCycle := st.1
        , cycles := st.2 }

/-- Run `fuel` iterations of the DFS loop (the loop terminates within
`2 * numVertices + 1` iterations; once the stack is empty a step is the
identity, so any larger fuel gives the final state). -/
def runDfs (g : ConflictGraph) (v : ℕ) : ℕ → DfsState → DfsState
  | 0, s => s
  | fuel+1, s => runDfs g v fuel (dfsStep g v s)

/-- `get_odd_cycles(v, vOddCyle)`: the output list after running the DFS
loop from the initial state. -/
def get_odd_cycles (g : ConflictGraph) (v : ℕ) (fuel : ℕ) : List (List ℕ) :=
  (runDfs g v fuel (initDfs v)).cycles

/-- One linear constraint emitted by `add_odd_cycle_constraints`:
`indices` are the color-bit variable indices summed on the left-hand side;
`lower = true` is `sum >= bound`, `lower = false` is `sum <= bound`. -/
structure OddCycleCut where
  indices : List ℕ
  lower : Bool
  bound : ℤ
deriving DecidableEq, Repr

/-- The four constraints emitted for one odd cycle (lines 407-425):
`constraint1` over the even bits `u<<1` and `constraint2` over the odd bits
`(u<<1)+1`, each bounded below by `1` and above by `cycleLength - 1`. -/
def cutsOfCycle (cyc : List ℕ) : List OddCycleCut :=
  [ ⟨cyc.map (fun u => 2*u), true, 1⟩
  , ⟨cyc.map (fun u => 2*u), false, (cyc.length : ℤ) - 1⟩
  , ⟨cyc.map (fun u => 2*u+1), true, 1⟩
  , ⟨cyc.map (fun u => 2*u+1), false, (cyc.length : ℤ) - 1⟩ ]

/-- `add_odd_cycle_constraints` (lines 393-428): for every vertex `v`
(the loop over color-bit pairs), collect the cycles found by
`get_odd_cycles(v, ...)` and emit the four cuts of each cycle. -/
def add_odd_cycle_constraints (g : ConflictGraph) (fuel : ℕ) : List OddCycleCut :=
  (List.range (numVertices g)).flatMap
    (fun v => (get_odd_cycles g v fuel).flatMap cutsOfCycle)

/-- Loop invariant of the DFS of `get_odd_cycles`: only the root ever has
the visited flag, the root keeps distance `0`, every other stacked vertex
has distance `1` (the buggy second write of line 185), and no cycle has
been emitted. -/
def DfsInv (v : ℕ) (s : DfsState) : Prop :=
  (∀ x, x ≠ v → s.visited x = false) ∧
  s.dist v = 0 ∧
  (∀ x ∈ s.stack, x = v ∨ s.dist x = 1) ∧
  s.cycles = []

/-! ## Cover-constraint completeness helper -/

/-- Interpret a 0/1 bit as a rational LP value. -/
def bitToQ (b : Bool) : ℚ := if b then 1 else 0

/-! ## Dual-MCF engine adapters (`DualMinCostFlow.h`)

The four `MinCostFlowSolver` subclasses carry one algorithm parameter
each; the construction is modelled by resolving the C++ default argument
(`Option.getD`) and storing the member. -/

/-- `lemon::CostScaling` internal method (`PUSH`, `AUGMENT`, `PARTIAL_AUGMENT`). -/
inductive CostScalingMethod where
  | PUSH
  | AUGMENT
  | PARTIAL_AUGMENT
deriving DecidableEq, Repr

/-- `lemon::NetworkSimplex` pivot rule. -/
inductive NetworkSimplexPivotRule where
  | FIRST_ELIGIBLE
  | BEST_ELIGIBLE
  | BLOCK_SEARCH
  | CANDIDATE_LIST
  | ALTERING_LIST
deriving DecidableEq, Repr

/-- `lemon::CycleCanceling` method. -/
inductive CycleCancelingMethod where
  | SIMPLE_CYCLE_CANCELING
  | MINIMUM_MEAN_CYCLE_CANCELING
  | CANCEL_AND_TIGHTEN
deriving DecidableEq, Repr

/-- State of a constructed `CapacityScaling` adapter. -/
structure CapacityScalingSolver where
  m_factor : ℤ
deriving DecidableEq, Repr

/-- State of a constructed `CostScaling` adapter. -/
structure CostScalingSolver where
  m_method : CostScalingMethod
  m_factor : ℤ
deriving DecidableEq, Repr

/-- State of a constructed `NetworkSimplex` adapter. -/
structure NetworkSimplexSolver where
  m_pivotRule : NetworkSimplexPivotRule
deriving DecidableEq, Repr

/-- State of a constructed `CycleCanceling` adapter. -/
structure CycleCancelingSolver where
  m_method : CycleCancelingMethod
deriving DecidableEq, Repr

/-- Modelled from the spec: the `CapacityScaling` constructor body (it
lives outside `src/`; only the declaration `CapacityScaling(int factor = 4)`
is in `DualMinCostFlow.h`) stores its argument, per §4.9 "Capacity Scaling
(parameter: scaling factor, default 4)". `none` means the caller passed no
argument, so the default of the declaration applies. -/
def mkCapacityScaling (factor : Option ℤ) : CapacityScalingSolver :=
  ⟨factor.getD 4⟩

/-- Modelled from the spec: the `CostScaling` constructor body stores its
arguments; the declaration in `DualMinCostFlow.h` gives the defaults
`method = PARTIAL_AUGMENT`, `factor = 16`. -/
def mkCostScaling (method : Option CostScalingMethod) (factor : Option ℤ) :
    CostScalingSolver :=
  ⟨method.getD CostScalingMethod.PARTIAL_AUGMENT, factor.getD 16⟩

/-- Modelled from the spec: the `NetworkSimplex` constructor body stores
its argument; the declaration gives the default `pivotRule = BLOCK_SEARCH`. -/
def mkNetworkSimplex (pivotRule : Option NetworkSimplexPivotRule) :
    NetworkSimplexSolver :=
  ⟨pivotRule.getD NetworkSimplexPivotRule.BLOCK_SEARCH⟩

/-- Modelled from the spec: the `CycleCanceling` constructor body stores
its argument; the declaration gives the default `method = CANCEL_AND_TIGHTEN`. -/
def mkCycleCanceling (method : Option CycleCancelingMethod) :
    CycleCancelingSolver :=
  ⟨method.getD CycleCancelingMethod.CANCEL_AND_TIGHTEN⟩

/-! ## Greedy refinement (`LPColoring::post_refinement` / `refine_color`)

Colors are naturals in `{0,1,2,3}`. The `mValidColors` array is declared
`bool [2][4]` but read at `[c1][c2]` for `c1` up to 3; entries outside the
declared rows are modelled as `true` (the C++ read is out of bounds there;
the concrete execution proved below never consults them). -/

/-- `mValidColors` initialization (lines 648-653): all `true`, and in
THREE mode `[0][3]` and `[1][3]` set to `false`. -/
def initValidColors (cn : ColorNum) : ℕ → ℕ → Bool :=
  fun c1 c2 => if cn = ColorNum.THREE ∧ c2 = 3 ∧ c1 ≤ 1 then false else true

/-- The write `mValidColors[0][j] = false` of line 669. -/
def invalidateRow0 (m : ℕ → ℕ → Bool) (j : ℕ) : ℕ → ℕ → Bool :=
  fun a b => if a = 0 ∧ b = j then false else m a b

/-- The neighbor scan of lines 665-670 for the endpoint `cv` whose other
endpoint is `ov`: every neighbor `u ≠ ov` executes
`mValidColors[0][m_vColor[u]] = false` (the row index is the constant `0`
in the source). -/
def mark_adjacent (col : ℕ → ℕ) (ov : ℕ) (neighbors : List ℕ)
    (m : ℕ → ℕ → Bool) : ℕ → ℕ → Bool :=
  neighbors.foldl (fun m u => if u ≠ ov then invalidateRow0 m (col u) else m) m

/-- Both rounds of the `for (int32_t i = 0; i != 2; ++i)` loop of line
660: first `cv = v[0], ov = v[1]`, then `cv = v[1], ov = v[0]`. -/
def mark_both (g : ConflictGraph) (col : ℕ → ℕ) (v0 v1 : ℕ)
    (m : ℕ → ℕ → Bool) : ℕ → ℕ → Bool :=
  mark_adjacent col v0 (adjOf g v1) (mark_adjacent col v1 (adjOf g v0) m)

/-- Candidate order of the nested `c1`/`c2` loops (lines 655-656). -/
def allColorPairs : List (ℕ × ℕ) :=
  [(0,0),(0,1),(0,2),(0,3),(1,0),(1,1),(1,2),(1,3),
   (2,0),(2,1),(2,2),(2,3),(3,0),(3,1),(3,2),(3,3)]

/-- The candidate loop of `refine_color` (lines 655-678): skip pairs with
`c1 = c2` or an invalid entry; otherwise run the neighbor marking (whose
effect on `mValidColors` persists across candidates) and assign the pair
if its entry is still valid. -/
def tryColorPairs (g : ConflictGraph) (col : ℕ → ℕ) (v0 v1 : ℕ) :
    List (ℕ × ℕ) → (ℕ → ℕ → Bool) → Option (ℕ × ℕ)
  | [], _ => none
  | (c1, c2) :: rest, m =>
    if c1 ≠ c2 ∧ m c1 c2 = true then
      let m2 := mark_both g col v0 v1 m
      if m2 c1 c2 = true then some (c1, c2)
      else tryColorPairs g col v0 v1 rest m2
    else tryColorPairs g col v0 v1 rest m

/-- `refine_color(e)` on the edge `(v0, v1)` (lines 637-681): `none`
models returning `false` with no color change; `some (c1, c2)` models
`m_vColor[v[0]] = c1; m_vColor[v[1]] = c2; return true`. -/
def refine_color (g : ConflictGraph) (cn : ColorNum) (col : ℕ → ℕ)
    (v0 v1 : ℕ) : Option (ℕ × ℕ) :=
  if col v0 ≠ col v1 then none
  else tryColorPairs g col v0 v1 allColorPairs (initValidColors cn)

/-- The color array after `refine_color` ran on the edge `(v0, v1)`. -/
def refine_color_apply (g : ConflictGraph) (cn : ColorNum) (col : ℕ → ℕ)
    (v0 v1 : ℕ) : ℕ → ℕ :=
  match refine_color g cn col v0 v1 with
  | none => col
  | some (c1, c2) => fun x => if x = v1 then c2 else if x = v0 then c1 else col x

/-- Number of conflict edges: edges whose endpoints hold the same color. -/
def conflictCount (edges : List (ℕ × ℕ)) (col : ℕ → ℕ) : ℕ :=
  edges.countP (fun e => decide (col e.1 = col e.2))

/-! ## Binding-analysis rounder (`LPColoring::rounding_with_binding_analysis`) -/

/-- `ConstrVariableInfo` (lines 62-85): coefficient and sense (`'>'` or
`'<'`) of one variable in one constraint. -/
structure ConstrVariableInfo where
  coeff : ℚ
  sense : Char
deriving DecidableEq, Repr

/-- Default-constructed `ConstrVariableInfo`: `coeff = 0.0`,
`sense = '>'`. -/
def initConstrVariableInfo : ConstrVariableInfo := ⟨0, '>'⟩

/-- `ConstrVariableInfo::same_direction` (lines 76-84), called as
`cur.same_direction(prev)`. -/
def same_direction (a b : ConstrVariableInfo) : Bool :=
  if a.coeff = 0 ∨ b.coeff = 0 then true
  else if a.sense = b.sense then
    decide ((0 < a.coeff ∧ 0 < b.coeff) ∨ (a.coeff < 0 ∧ b.coeff < 0))
  else
    decide ((0 < a.coeff ∧ b.coeff < 0) ∨ (a.coeff < 0 ∧ 0 < b.coeff))

/-- One constraint of a pair's columns, as read through the LP queries of
lines 559-565: its slack, its sense, and its coefficients on the two pair
variables (`getCoeff(constr, var1)` / `getCoeff(constr, var2)`). -/
structure BindingConstr where
  slack : ℚ
  sense : Char
  a1 : ℚ
  a2 : ℚ
deriving DecidableEq, Repr

/-- `delta = coeff1*(b1 - value1) + coeff2*(b2 - value2)` of line 580. -/
def candidateDelta (c : BindingConstr) (value1 value2 : ℚ) (b1 b2 : ℕ) : ℚ :=
  c.a1 * ((b1 : ℚ) - value1) + c.a2 * ((b2 : ℚ) - value2)

/-- The invalidation test of line 581:
`(sense == '>' && delta < 0.0) || (sense == '<' && delta > 0.0)`. -/
def roundingViolation (sense : Char) (delta : ℚ) : Bool :=
  decide ((sense = '>' ∧ delta < 0) ∨ (sense = '<' ∧ 0 < delta))

/-- The `2 x 2` array `mValidColorBits` of candidate roundings (lines
547-552). -/
structure ValidMat where
  v00 : Bool
  v01 : Bool
  v10 : Bool
  v11 : Bool
deriving DecidableEq, Repr

/-- Read `mValidColorBits[b1][b2]` for `b1, b2` in `{0, 1}`. -/
def ValidMat.get (m : ValidMat) (b1 b2 : ℕ) : Bool :=
  if b1 = 0 then (if b2 = 0 then m.v00 else m.v01)
  else (if b2 = 0 then m.v10 else m.v11)

/-- Write `mValidColorBits[b1][b2] = false`. -/
def ValidMat.invalidate (m : ValidMat) (b1 b2 : ℕ) : ValidMat :=
  if b1 = 0 then
    (if b2 = 0 then { m with v00 := false } else { m with v01 := false })
  else
    (if b2 = 0 then { m with v10 := false } else { m with v11 := false })

/-- One candidate check of lines 575-587: if the candidate is still valid
and the delta test fails it, invalidate it and bump `invalidCount`. -/
def checkOne (c : BindingConstr) (value1 value2 : ℚ) (b1 b2 : ℕ)
    (st : ValidMat × ℕ) : ValidMat × ℕ :=
  if st.1.get b1 b2 = true then
    if roundingViolation c.sense (candidateDelta c value1 value2 b1 b2) = true then
      (st.1.invalidate b1 b2, st.2 + 1)
    else st
  else st

/-- The full `b1`/`b2` candidate loop in its source order
`(0,0), (0,1), (1,0), (1,1)`. -/
def checkAllCandidates (c : BindingConstr) (value1 value2 : ℚ)
    (st : ValidMat × ℕ) : ValidMat × ℕ :=
  checkOne c value1 value2 1 1
    (checkOne c value1 value2 1 0
      (checkOne c value1 value2 0 1
        (checkOne c value1 value2 0 0 st)))

/-- Per-pair scan state: `prevConstrInfo`, `mValidColorBits`,
`invalidCount` and `failFlag`. -/
structure RoundingState where
  prev1 : ConstrVariableInfo
  prev2 : ConstrVariableInfo
  valid : ValidMat
  invalidCount : ℕ
  failFlag : Bool
deriving DecidableEq, Repr

/-- Initial per-pair state (lines 543-555): default `prevConstrInfo`, all
candidates valid except `(1,1)` in THREE mode, `invalidCount = 0` (the
pre-invalidated `(1,1)` is not counted), `failFlag = false`. -/
def initRoundingState (cn : ColorNum) : RoundingState :=
  { prev1 := initConstrVariableInfo
  , prev2 := initConstrVariableInfo
  , valid := ⟨true, true, true, if cn = ColorNum.THREE then false else true⟩
  , invalidCount := 0
  , failFlag := false }

/-- Processing of one constraint of the pair's columns (lines 556-598):
once `failFlag` is set the remaining constraints are skipped (the loops
`break`); non-binding constraints (`slack != 0`) are skipped; a
direction-of-sensitivity conflict aborts; otherwise the candidate checks
run, and the pair aborts (before `prevConstrInfo` is updated) when
`invalidCount` reaches 4. -/
def processConstr (value1 value2 : ℚ) (s : RoundingState)
    (c : BindingConstr) : RoundingState :=
  if s.failFlag = true then s
  else if c.slack ≠ 0 then s
  else
    let cur1 : ConstrVariableInfo := ⟨c.a1, c.sense⟩
    let cur2 : ConstrVariableInfo := ⟨c.a2, c.sense⟩
    if !(same_direction cur1 s.prev1) || !(same_direction cur2 s.prev2) then
      { s with failFlag := true }
    else
      let st := checkAllCandidates c value1 value2 (s.valid, s.invalidCount)
      if st.2 = 4 then
        { s with valid := st.1, invalidCount := st.2, failFlag := true }
      else
        { prev1 := cur1, prev2 := cur2, valid := st.1, invalidCount := st.2
        , failFlag := false }

/-- The whole constraint scan for one half-integer pair (the pair guard of
line 535 ensures `value1 = value2 = 0.5`), over the concatenation of the
constraint columns of the two pair variables. -/
def scanPairConstraints (cn : ColorNum) (cs : List BindingConstr) :
    RoundingState :=
  cs.foldl (processConstr (1/2) (1/2)) (initRoundingState cn)

/-- The apply phase of lines 600-612: if the pair did not fail, every
still-valid candidate `(b1, b2)` (in loop order) has the bounds
`UB = LB = b1` set on the first variable and `UB = LB = b2` on the second.
The returned list records the bound-fixing writes performed. -/
def applyPhase (s : RoundingState) : List (ℕ × ℕ) :=
  if s.failFlag = true then []
  else [(0,0),(0,1),(1,0),(1,1)].filter (fun p => s.valid.get p.1 p.2)

/-- Number of still-valid candidates. -/
def countValid (m : ValidMat) : ℕ :=
  (if m.v00 then 1 else 0) + (if m.v01 then 1 else 0) +
  (if m.v10 then 1 else 0) + (if m.v11 then 1 else 0)

/-- All four rounding candidates invalid. -/
def allInvalid (m : ValidMat) : Prop :=
  m.v00 = false ∧ m.v01 = false ∧ m.v10 = false ∧ m.v11 = false

/-- Invariant of the constraint scan started in FOUR mode: `invalidCount`
plus the number of still-valid candidates is 4, and while the pair has not
failed at least one candidate is valid. -/
def RoundingInv (s : RoundingState) : Prop :=
  s.invalidCount + countValid s.valid = 4 ∧
  (s.failFlag = false → 1 ≤ countValid s.valid)

/-! # Theorems -/

/-- C5 counterexample: the pair `(0.5, 0.5)` has non-integer members, yet
the code adds no objective term at all (the `if`/`else if` chain has no
branch for equal values), while the claim says the term `v1 - v2`, i.e.
the coefficient delta `(1, -1)`, is gained. -/
theorem claim_C5_counterexample :
    is_integer (1/2 : ℚ) = false ∧
    adjustPair (1/2) (1/2) ≠ (1, -1) ∧
    adjustPair (1/2) (1/2) = (0, 0) := by
  have hni : is_integer (1/2 : ℚ) = false := by
    simp only [is_integer, decide_eq_false_iff_not]
    norm_num
  refine ⟨hni, ?_, ?_⟩ <;> simp [adjustPair, hni, Prod.ext_iff]

/-- C5 (amended): in each refinement iteration, for a vertex pair
`(v1, v2)` with a non-integer member, the objective gains `v2 - v1`
(deltas `(-1, 1)`) when `v1 > v2`, gains `v1 - v2` (deltas `(1, -1)`)
when `v1 < v2`, and gains nothing when the two values are equal. -/
theorem claim_C5_theorem (vals : List ℚ) (k : ℕ) (v1 v2 : ℚ)
    (h1 : vals.get? (2*k) = some v1) (h2 : vals.get? (2*k+1) = some v2)
    (hni : is_integer v1 = false ∨ is_integer v2 = false) :
    (adjust_variable_pair_in_objective vals).get? k = some (adjustPair v1 v2) ∧
    (v1 > v2 → adjustPair v1 v2 = (-1, 1)) ∧
    (v1 < v2 → adjustPair v1 v2 = (1, -1)) ∧
    (v1 = v2 → adjustPair v1 v2 = (0, 0)) := by
  constructor
  · clear hni
    induction k generalizing vals with
    | zero =>
      rcases vals with _ | ⟨a, _ | ⟨b, rest⟩⟩
      · simp at h1
      · simp at h2
      · simp only [Nat.mul_zero, List.get?] at h1 h2
        simp only [adjust_variable_pair_in_objective, List.get?]
        simp at h1 h2
        rw [h1, h2]
    | succ k ih =>
      rcases vals with _ | ⟨a, _ | ⟨b, rest⟩⟩
      · simp at h1
      · rw [show 2*(k+1) = 2*k+1+1 by ring] at h1
        simp at h1
      · rw [show 2*(k+1) = 2*k+1+1 by ring] at h1 h2
        simp only [List.get?] at h1 h2
        simp only [adjust_variable_pair_in_objective, List.get?]
        exact ih rest h1 h2
  · refine ⟨fun hgt => ?_, fun hlt => ?_, fun heq => ?_⟩
    · simp only [adjustPair, if_pos hgt]
      rcases hni with h | h <;> simp [h]
    · have hngt : ¬ v1 > v2 := not_lt.mpr (le_of_lt hlt)
      simp only [adjustPair, if_neg hngt, if_pos hlt]
      rcases hni with h | h <;> simp [h]
    · subst heq
      simp [adjustPair, lt_irrefl]

/-- Witness for C5 (amended) at the concrete pair list `[1/2, 1/4]`. -/
theorem claim_C5_witness :
    (adjust_variable_pair_in_objective [1/2, 1/4]).get? 0 =
      some (adjustPair (1/2) (1/4)) ∧
    adjustPair (1/2 : ℚ) (1/4) = (-1, 1) :=
  ⟨(claim_C5_theorem [1/2, 1/4] 0 (1/2) (1/4) rfl rfl
      (Or.inl (by simp only [is_integer, decide_eq_false_iff_not]; norm_num))).1,
   (claim_C5_theorem [1/2, 1/4] 0 (1/2) (1/4) rfl rfl
      (Or.inl (by simp only [is_integer, decide_eq_false_iff_not]; norm_num))).2.1
     (by norm_num)⟩

/-- C9: for every edge and every 0/1 assignment of the four bits in which
the two endpoint 2-bit codes `(b1 << 1) + b2` coincide, one of the four
emitted cover constraints has left-hand side `0`, which is `< 1`. -/
theorem claim_C9_theorem (s1 s2 t1 t2 : Bool)
    (hcode : 2 * bitToQ s1 + bitToQ s2 = 2 * bitToQ t1 + bitToQ t2) :
    (coverLHS1 (bitToQ s1) (bitToQ s2) (bitToQ t1) (bitToQ t2) = 0 ∨
     coverLHS2 (bitToQ s1) (bitToQ s2) (bitToQ t1) (bitToQ t2) = 0 ∨
     coverLHS3 (bitToQ s1) (bitToQ s2) (bitToQ t1) (bitToQ t2) = 0 ∨
     coverLHS4 (bitToQ s1) (bitToQ s2) (bitToQ t1) (bitToQ t2) = 0) ∧
    (0 : ℚ) < 1 := by
  cases s1 <;> cases s2 <;> cases t1 <;> cases t2 <;>
    refine ⟨?_, by norm_num⟩ <;>
    first
      | (exfalso; norm_num [bitToQ] at hcode; done)
      | norm_num [bitToQ, coverLHS1, coverLHS2, coverLHS3, coverLHS4]

/-- Witness for C9 at the all-zero assignment (codes both `0`). -/
theorem claim_C9_witness :
    (coverLHS1 (bitToQ false) (bitToQ false) (bitToQ false) (bitToQ false) = 0 ∨
     coverLHS2 (bitToQ false) (bitToQ false) (bitToQ false) (bitToQ false) = 0 ∨
     coverLHS3 (bitToQ false) (bitToQ false) (bitToQ false) (bitToQ false) = 0 ∨
     coverLHS4 (bitToQ false) (bitToQ false) (bitToQ false) (bitToQ false) = 0) ∧
    (0 : ℚ) < 1 :=
  claim_C9_theorem false false false false rfl

/-- C10: the four MCF engine adapters constructed with no argument receive
the declared defaults: `CapacityScaling` factor `4`, `CostScaling` method
`PARTIAL_AUGMENT` and factor `16`, `NetworkSimplex` pivot rule
`BLOCK_SEARCH`, `CycleCanceling` method `CANCEL_AND_TIGHTEN`. -/
theorem claim_C10_theorem :
    mkCapacityScaling none = ⟨4⟩ ∧
    mkCostScaling none none = ⟨CostScalingMethod.PARTIAL_AUGMENT, 16⟩ ∧
    mkNetworkSimplex none = ⟨NetworkSimplexPivotRule.BLOCK_SEARCH⟩ ∧
    mkCycleCanceling none = ⟨CycleCancelingMethod.CANCEL_AND_TIGHTEN⟩ :=
  ⟨rfl, rfl, rfl, rfl⟩

/-- `cround` on a nonnegative value is `⌊x + 1/2⌋`. -/
theorem cround_of_nonneg (x : ℚ) (h : 0 ≤ x) : cround x = ⌊x + 1/2⌋ := by
  simp only [cround, if_neg (not_lt.mpr h)]

/-- Rounding a value of `[0,1]` yields a bit. -/
theorem cround_zero_or_one {b : ℚ} (h0 : 0 ≤ b) (h1 : b ≤ 1) :
    cround b = 0 ∨ cround b = 1 := by
  rw [cround_of_nonneg b h0]
  have hlow : (0:ℤ) ≤ ⌊b + 1/2⌋ := Int.le_floor.mpr (by push_cast; linarith)
  have hup : ⌊b + 1/2⌋ < 2 := Int.floor_lt.mpr (by push_cast; linarith)
  omega

/-- On `[0,1]`, `cround` gives `1` exactly on the upper half (rounding
half up). -/
theorem cround_eq_one_iff {b : ℚ} (h0 : 0 ≤ b) (h1 : b ≤ 1) :
    cround b = 1 ↔ 1/2 ≤ b := by
  rw [cround_of_nonneg b h0]
  constructor
  · intro h
    have h2 := Int.le_floor.mp (le_of_eq h.symm)
    push_cast at h2
    linarith
  · intro h
    have hlow : (1:ℤ) ≤ ⌊b + 1/2⌋ := Int.le_floor.mpr (by push_cast; linarith)
    have hup : ⌊b + 1/2⌋ < 2 := Int.floor_lt.mpr (by push_cast; linarith)
    omega

/-- C1 counterexample: on the triangle graph in THREE mode, the solution
that anchors vertex 0 at `(0,0)` and puts `(0.5, 0.5)` on vertices 1 and 2
satisfies every model constraint (all cover constraints and all
`b1 + b2 <= 1` constraints), yet `apply_solution` gives vertex 1 the color
`3`, which is not in `{0,1,2}`. -/
theorem claim_C1_counterexample :
    modelConstraintsSat ColorNum.THREE 3 [(0,1),(1,2),(0,2)]
      (fun i => if i < 2 then 0 else 1/2) ∧
    apply_solution_color (fun i => if i < 2 then 0 else 1/2) 1 = 3 ∧
    ¬(apply_solution_color (fun i => if i < 2 then 0 else 1/2) 1 = 0 ∨
      apply_solution_color (fun i => if i < 2 then 0 else 1/2) 1 = 1 ∨
      apply_solution_color (fun i => if i < 2 then 0 else 1/2) 1 = 2) := by
  have happ : apply_solution_color (fun i => if i < 2 then 0 else 1/2) 1 = 3 := by
    norm_num [apply_solution_color, cround]
  refine ⟨⟨?_, ?_, ?_⟩, happ, by rw [happ]; norm_num⟩
  · intro i hi
    dsimp only
    split <;> norm_num
  · intro e he
    fin_cases he <;> norm_num [edgeCoverSat, coverLHS1, coverLHS2, coverLHS3, coverLHS4]
  · simp only [vertexThreeSat]
    intro v hv
    interval_cases v <;> norm_num

/-- C1 (amended): for every LP solution satisfying the model constraints,
`apply_solution` always produces a color in `{0,1,2,3}`; in THREE mode the
color is moreover in `{0,1,2}` for every vertex whose bit pair is not
exactly `(0.5, 0.5)` — the pair `(0.5, 0.5)` satisfies `b1 + b2 <= 1` but
rounds to color `3`. -/
theorem claim_C1_theorem (cn : ColorNum) (n : ℕ) (edges : List (ℕ × ℕ))
    (x : ℕ → ℚ) (v : ℕ)
    (hsat : modelConstraintsSat cn n edges x) (hv : v < n) :
    (apply_solution_color x v = 0 ∨ apply_solution_color x v = 1 ∨
     apply_solution_color x v = 2 ∨ apply_solution_color x v = 3) ∧
    (cn = ColorNum.THREE → ¬(x (2*v) = 1/2 ∧ x (2*v+1) = 1/2) →
      (apply_solution_color x v = 0 ∨ apply_solution_color x v = 1 ∨
       apply_solution_color x v = 2)) := by
  obtain ⟨hbounds, hedges, hthree⟩ := hsat
  obtain ⟨h10, h11⟩ := hbounds (2*v) (by omega)
  obtain ⟨h20, h21⟩ := hbounds (2*v+1) (by omega)
  have hc1 := cround_zero_or_one h10 h11
  have hc2 := cround_zero_or_one h20 h21
  constructor
  · simp only [apply_solution_color]
    omega
  · intro hTHREE hnot
    subst hTHREE
    simp only [vertexThreeSat] at hthree
    have hsum := hthree v hv
    simp only [apply_solution_color]
    rcases hc1 with h1 | h1 <;> rcases hc2 with h2 | h2
    · omega
    · omega
    · omega
    · exfalso
      have hx1 : 1/2 ≤ x (2*v) := (cround_eq_one_iff h10 h11).mp h1
      have hx2 : 1/2 ≤ x (2*v+1) := (cround_eq_one_iff h20 h21).mp h2
      exact hnot ⟨by linarith, by linarith⟩

/-- Witness for C1 (amended) at the anchored all-zero solution of the
single-vertex edgeless graph in THREE mode. -/
theorem claim_C1_witness :
    (apply_solution_color (fun _ => 0) 0 = 0 ∨
     apply_solution_color (fun _ => 0) 0 = 1 ∨
     apply_solution_color (fun _ => 0) 0 = 2 ∨
     apply_solution_color (fun _ => 0) 0 = 3) ∧
    (ColorNum.THREE = ColorNum.THREE →
      ¬((fun _ => (0:ℚ)) (2*0) = 1/2 ∧ (fun _ => (0:ℚ)) (2*0+1) = 1/2) →
      (apply_solution_color (fun _ => 0) 0 = 0 ∨
       apply_solution_color (fun _ => 0) 0 = 1 ∨
       apply_solution_color (fun _ => 0) 0 = 2)) :=
  claim_C1_theorem ColorNum.THREE 1 [] (fun _ => 0) 0
    ⟨fun i _ => by norm_num,
     fun e he => absurd he (List.not_mem_nil e),
     by simp only [vertexThreeSat]; intro v hv; norm_num⟩
    (by omega)

/-- The guarded refinement loop can run at most `non_integer_count (f 0)`
iterations: each iteration after the first needs a strict decrease of a
positive census. -/
theorem guard_iterations_bound (f : ℕ → List ℚ) (K : ℕ)
    (hg : ∀ k < K, 0 < non_integer_count (f k) ∧
      non_integer_count (f k) < prevCensus f k) :
    K ≤ non_integer_count (f 0) := by
  rcases K with _ | K
  · omega
  · have hstep : ∀ j, j ≤ K → non_integer_count (f j) + j ≤ non_integer_count (f 0) := by
      intro j
      induction j with
      | zero => omega
      | succ j ih =>
        intro hj
        have h1 := ih (by omega)
        have h2 := (hg (j+1) (by omega)).2
        simp only [prevCensus] at h2
        omega
    have hpos := (hg K (by omega)).1
    have hK := hstep K (le_refl K)
    omega

/-- C8: both refinement while-loops terminate within `2|V|` iterations:
if the loop guard (positive, strictly decreased vertex-bit non-integer
census) holds for every iteration below `K`, then `K` is at most the
number of color-bit variables `2 * numV`. -/
theorem claim_C8_theorem (numV : ℕ) (f : ℕ → List ℚ) (K : ℕ)
    (hlen : ∀ k, (f k).length = 2 * numV) :
    ((∀ k < K, coloring_loop_guard f k) → K ≤ 2 * numV) ∧
    ((∀ k < K, rounding_loop_guard f k) → K ≤ 2 * numV) := by
  have hle : non_integer_count (f 0) ≤ 2 * numV := by
    rw [← hlen 0]
    exact List.countP_le_length _
  constructor <;> intro hg <;>
    exact le_trans (guard_iterations_bound f K (fun k hk => hg k hk)) hle

/-- Witness for C8 on a one-vertex instance whose census stays `2`; the
guard holds at iteration 0 and the bound `1 ≤ 2` follows. -/
theorem claim_C8_witness : 1 ≤ 2 * 1 :=
  (claim_C8_theorem 1 (fun _ => [1/2, 1/2]) 1 (fun _ => rfl)).1
    (by
      intro k hk
      interval_cases k
      constructor
      · norm_num [non_integer_count, List.countP, List.countP.go]
      · norm_num [non_integer_count, prevCensus, UINT32_MAX, List.countP,
          List.countP.go])

/-- A vertex of a self-loop-free graph is never its own neighbor, also
outside the stored adjacency range. -/
theorem noSelfLoop_adjOf {g : ConflictGraph} (h : NoSelfLoop g) (u : ℕ) :
    u ∉ adjOf g u := by
  by_cases hu : u < g.adj.length
  · exact h u hu
  · rw [adjOf, List.getD_eq_default _ _ (by omega)]
    simp

/-- If no neighbor of `cv` satisfies the emission condition
`vNodeVisited[u] && vNodeDistColor[u] == vNodeDistColor[cv]`, the
detection loop changes nothing. -/
theorem detectCyclesAt_no_emit (v cv : ℕ) (stack : List ℕ) (dist : ℕ → ℤ)
    (visited : ℕ → Bool) (l : List ℕ) (st : (ℕ → Bool) × List (List ℕ))
    (h : ∀ u ∈ l, ¬(visited u = true ∧ dist u = dist cv)) :
    detectCyclesAt v cv stack dist visited l st = st := by
  induction l generalizing st with
  | nil => rfl
  | cons u us ih =>
    have hcond : (visited u && (dist u == dist cv)) = false := by
      cases hv : visited u with
      | false => simp
      | true =>
        simp only [Bool.true_and, beq_eq_false_iff_ne, ne_eq]
        intro heq
        exact h u (List.mem_cons_self u us) ⟨hv, heq⟩
    simp only [detectCyclesAt, hcond, Bool.false_eq_true, if_false]
    exact ih st (fun u' hu' => h u' (List.mem_cons_of_mem u hu'))

/-- The DFS invariant holds at the initial state. -/
theorem dfsInv_init (v : ℕ) : DfsInv v (initDfs v) := by
  refine ⟨?_, ?_, ?_, rfl⟩
  · intro x hx
    simp [initDfs, hx]
  · simp [initDfs]
  · intro x hx
    simp only [initDfs, List.mem_singleton] at hx
    exact Or.inl hx

/-- The DFS invariant is preserved by one loop iteration. -/
theorem dfsInv_step (g : ConflictGraph) (v : ℕ) (s : DfsState)
    (hg : NoSelfLoop g) (hinv : DfsInv v s) : DfsInv v (dfsStep g v s) := by
  obtain ⟨hvis, hdv, hstack, hcyc⟩ := hinv
  rcases hst : s.stack with _ | ⟨cv, rest⟩
  · simp only [dfsStep, hst]
    exact ⟨hvis, hdv, hstack, hcyc⟩
  · rcases hfind : (adjOf g cv).find? (fun u => s.dist u == -1) with _ | u
    · -- pop branch
      have hnone : ∀ u' ∈ adjOf g cv, ¬(s.visited u' = true ∧ s.dist u' = s.dist cv) := by
        rintro u' hu' ⟨h1, h2⟩
        by_cases huv : u' = v
        · subst huv
          have hcv := hstack cv (by rw [hst]; exact List.mem_cons_self _ _)
          rcases hcv with hcv | hcv
          · subst hcv
            exact noSelfLoop_adjOf hg cv hu'
          · rw [hdv, hcv] at h2
            exact absurd h2 (by decide)
        · rw [hvis u' huv] at h1
          exact absurd h1 (by decide)
      simp only [dfsStep, hst, hfind]
      rw [detectCyclesAt_no_emit v cv (cv :: rest) s.dist s.visited (adjOf g cv)
        (s.inCycle, s.cycles) hnone]
      refine ⟨?_, hdv, ?_, hcyc⟩
      · intro x hx
        dsimp only
        by_cases hxc : x = cv
        · rw [if_pos hxc]
        · rw [if_neg hxc]
          exact hvis x hx
      · intro x hx
        exact hstack x (by rw [hst]; exact List.mem_cons_of_mem cv hx)
    · -- push branch
      have hdu : s.dist u = -1 := by
        have := List.find?_some hfind
        rwa [beq_iff_eq] at this
      have hune : u ≠ v := by
        intro h
        rw [h, hdv] at hdu
        exact absurd hdu (by decide)
      simp only [dfsStep, hst, hfind]
      refine ⟨hvis, ?_, ?_, hcyc⟩
      · dsimp only
        rw [if_neg (Ne.symm hune), if_neg (Ne.symm hune)]
        exact hdv
      · intro x hx
        dsimp only
        by_cases hxu : x = u
        · rw [if_pos hxu]
          exact Or.inr rfl
        · rw [if_neg hxu, if_neg hxu]
          rcases List.mem_cons.mp hx with hx1 | hx2
          · exact absurd hx1 hxu
          · exact hstack x (by rw [hst]; exact hx2)

/-- The DFS invariant is preserved by any number of loop iterations. -/
theorem dfsInv_run (g : ConflictGraph) (v : ℕ) (fuel : ℕ) (s : DfsState)
    (hg : NoSelfLoop g) (hinv : DfsInv v s) : DfsInv v (runDfs g v fuel s) := by
  induction fuel generalizing s with
  | zero => exact hinv
  | succ n ih => exact ih _ (dfsInv_step g v s hg hinv)

/-- C2: on a graph without self-loops, `get_odd_cycles` always returns an
empty cycle list (the buggy write `vNodeDistColor[u] = true` of line 185
gives every non-root vertex distance `1` and never marks it visited, so
the emission condition can never fire), and consequently
`add_odd_cycle_constraints` adds no constraint in any iteration. -/
theorem claim_C2_theorem (g : ConflictGraph) (v fuel : ℕ) (hg : NoSelfLoop g) :
    get_odd_cycles g v fuel = [] ∧ add_odd_cycle_constraints g fuel = [] := by
  have hempty : ∀ w, get_odd_cycles g w fuel = [] := fun w =>
    (dfsInv_run g w fuel (initDfs w) hg (dfsInv_init w)).2.2.2
  refine ⟨hempty v, ?_⟩
  simp [add_odd_cycle_constraints, hempty]

/-- Witness for C2 on the triangle graph (root 0, fuel 20). -/
theorem claim_C2_witness :
    get_odd_cycles ⟨[[1,2],[0,2],[0,1]]⟩ 0 20 = [] ∧
    add_odd_cycle_constraints ⟨[[1,2],[0,2],[0,1]]⟩ 20 = [] :=
  claim_C2_theorem ⟨[[1,2],[0,2],[0,1]]⟩ 0 20 (by unfold NoSelfLoop; decide)

/-- C3 (evaluation at the failing input): on the path graph `0 - 1 - 2`
rooted at 0, after two DFS iterations the stack is `[2, 1, 0]` (head is
the top), but vertex 2 — reached from `cv = 1`, whose distance parity is
`1` — holds distance `1` instead of the claimed opposite parity
`1 - 1 = 0`, and its visited flag is still `false` instead of the claimed
`true`: line 185 overwrites the parity with `true` and never sets
`vNodeVisited[u]`. -/
theorem claim_C3_theorem :
    (runDfs ⟨[[1],[0,2],[1]]⟩ 0 2 (initDfs 0)).stack = [2, 1, 0] ∧
    (runDfs ⟨[[1],[0,2],[1]]⟩ 0 2 (initDfs 0)).dist 1 = 1 ∧
    (runDfs ⟨[[1],[0,2],[1]]⟩ 0 2 (initDfs 0)).dist 2 = 1 ∧
    (runDfs ⟨[[1],[0,2],[1]]⟩ 0 2 (initDfs 0)).visited 2 = false := by
  refine ⟨?_, ?_, ?_, ?_⟩ <;> decide

/-- C4 (evaluation at the failing input): on the star graph with center 0
and leaves 1..4, colors `[0,0,1,1,2]` and THREE mode, the graph has exactly
one conflict edge `(0,1)`; `refine_color` on that edge assigns the pair
`(1, 0)` — the candidate row `1` is never invalidated because line 669
writes only into row `0` — and after the assignment the conflict count
rises from 1 to 2 (edges `(0,2)` and `(0,3)` now clash), contradicting the
claim that each `refine_color` call never increases the number of
same-color edges. -/
theorem claim_C4_theorem :
    conflictCount [(0,1),(0,2),(0,3),(0,4)] (fun i => [0,0,1,1,2].getD i 0) = 1 ∧
    refine_color ⟨[[1,2,3,4],[0],[0],[0],[0]]⟩ ColorNum.THREE
      (fun i => [0,0,1,1,2].getD i 0) 0 1 = some (1, 0) ∧
    conflictCount [(0,1),(0,2),(0,3),(0,4)]
      (refine_color_apply ⟨[[1,2,3,4],[0],[0],[0],[0]]⟩ ColorNum.THREE
        (fun i => [0,0,1,1,2].getD i 0) 0 1) = 2 := by
  refine ⟨?_, ?_, ?_⟩ <;> decide

/-- Reading `mValidColorBits` after one invalidation write. -/
theorem ValidMat.get_invalidate (m : ValidMat) (b1 b2 e1 e2 : ℕ)
    (hb1 : b1 ≤ 1) (hb2 : b2 ≤ 1) (he1 : e1 ≤ 1) (he2 : e2 ≤ 1) :
    (m.invalidate b1 b2).get e1 e2 =
      if e1 = b1 ∧ e2 = b2 then false else m.get e1 e2 := by
  interval_cases b1 <;> interval_cases b2 <;> interval_cases e1 <;>
    interval_cases e2 <;> simp [ValidMat.get, ValidMat.invalidate]

/-- Effect of one candidate check on one entry of `mValidColorBits`: the
checked slot is and-ed with the negated violation test, other slots are
untouched. -/
theorem checkOne_get (c : BindingConstr) (v1 v2 : ℚ) (b1 b2 e1 e2 : ℕ)
    (hb1 : b1 ≤ 1) (hb2 : b2 ≤ 1) (he1 : e1 ≤ 1) (he2 : e2 ≤ 1)
    (st : ValidMat × ℕ) :
    (checkOne c v1 v2 b1 b2 st).1.get e1 e2 =
      if e1 = b1 ∧ e2 = b2 then
        st.1.get e1 e2 &&
          !(roundingViolation c.sense (candidateDelta c v1 v2 b1 b2))
      else st.1.get e1 e2 := by
  simp only [checkOne]
  split
  next hgood =>
    split
    next hviol =>
      have hget : ((st.1.invalidate b1 b2, st.2 + 1) : ValidMat × ℕ).1.get e1 e2 =
          (st.1.invalidate b1 b2).get e1 e2 := rfl
      rw [hget, ValidMat.get_invalidate st.1 b1 b2 e1 e2 hb1 hb2 he1 he2]
      by_cases he : e1 = b1 ∧ e2 = b2
      · rw [if_pos he, if_pos he, he.1, he.2, hgood, hviol]
        rfl
      · rw [if_neg he, if_neg he]
    next hviol =>
      have hv : roundingViolation c.sense (candidateDelta c v1 v2 b1 b2) = false := by
        cases h : roundingViolation c.sense (candidateDelta c v1 v2 b1 b2)
        · rfl
        · exact absurd h hviol
      by_cases he : e1 = b1 ∧ e2 = b2
      · rw [if_pos he, he.1, he.2, hgood, hv]
        rfl
      · rw [if_neg he]
  next hgood =>
    have hfalse : st.1.get b1 b2 = false := by
      cases h : st.1.get b1 b2
      · rfl
      · exact absurd h hgood
    by_cases he : e1 = b1 ∧ e2 = b2
    · rw [if_pos he, he.1, he.2, hfalse]
      rfl
    · rw [if_neg he]

/-- Effect of the whole candidate loop on one entry of `mValidColorBits`. -/
theorem checkAll_get (c : BindingConstr) (v1 v2 : ℚ) (st : ValidMat × ℕ)
    (e1 e2 : ℕ) (he1 : e1 ≤ 1) (he2 : e2 ≤ 1) :
    (checkAllCandidates c v1 v2 st).1.get e1 e2 =
      (st.1.get e1 e2 &&
        !(roundingViolation c.sense (candidateDelta c v1 v2 e1 e2))) := by
  unfold checkAllCandidates
  rw [checkOne_get c v1 v2 1 1 e1 e2 (by omega) (by omega) he1 he2,
      checkOne_get c v1 v2 1 0 e1 e2 (by omega) (by omega) he1 he2,
      checkOne_get c v1 v2 0 1 e1 e2 (by omega) (by omega) he1 he2,
      checkOne_get c v1 v2 0 0 e1 e2 (by omega) (by omega) he1 he2]
  interval_cases e1 <;> interval_cases e2 <;> simp

/-- C6: in `rounding_with_binding_analysis`, for a pair whose two values
are both exactly `0.5`, a constraint with nonzero slack leaves the scan
state untouched, and a binding constraint (slack exactly `0`) that passes
the direction check invalidates a still-valid candidate `(b1, b2)` exactly
when `delta = a1*(b1 - 0.5) + a2*(b2 - 0.5)` satisfies `delta < 0` for a
`'>'` constraint or `delta > 0` for a `'<'` constraint. -/
theorem claim_C6_theorem (c : BindingConstr) (s : RoundingState)
    (hff : s.failFlag = false) :
    (c.slack ≠ 0 → processConstr (1/2) (1/2) s c = s) ∧
    (c.slack = 0 →
      same_direction ⟨c.a1, c.sense⟩ s.prev1 = true →
      same_direction ⟨c.a2, c.sense⟩ s.prev2 = true →
      ∀ b1 b2 : ℕ, b1 ≤ 1 → b2 ≤ 1 →
        ((processConstr (1/2) (1/2) s c).valid.get b1 b2 = true ↔
          (s.valid.get b1 b2 = true ∧
            ¬((c.sense = '>' ∧
                c.a1 * ((b1:ℚ) - 1/2) + c.a2 * ((b2:ℚ) - 1/2) < 0) ∨
              (c.sense = '<' ∧
                0 < c.a1 * ((b1:ℚ) - 1/2) + c.a2 * ((b2:ℚ) - 1/2)))))) := by
  constructor
  · intro hslack
    simp only [processConstr, hff]
    rw [if_neg (by simp : ¬(false = true)), if_pos hslack]
  · intro hslack hd1 hd2 b1 b2 hb1 hb2
    have hvalid : (processConstr (1/2) (1/2) s c).valid =
        (checkAllCandidates c (1/2) (1/2) (s.valid, s.invalidCount)).1 := by
      simp only [processConstr, hff]
      rw [if_neg (by simp : ¬(false = true)),
          if_neg (by simp [hslack] : ¬(c.slack ≠ 0))]
      simp only [hd1, hd2, Bool.not_true, Bool.or_self, Bool.false_eq_true,
        if_false]
      split <;> rfl
    rw [hvalid,
      checkAll_get c (1/2) (1/2) (s.valid, s.invalidCount) b1 b2 hb1 hb2]
    simp only [Bool.and_eq_true, Bool.not_eq_true', roundingViolation,
      candidateDelta, decide_eq_false_iff_not]

/-- Witness for C6 at the binding constraint with coefficients `(1, 1)`
and sense `'>'`, the initial FOUR-mode state, and candidate `(0, 0)`. -/
theorem claim_C6_witness :
    (processConstr (1/2) (1/2) (initRoundingState ColorNum.FOUR)
        ⟨0, '>', 1, 1⟩).valid.get 0 0 = true ↔
      ((initRoundingState ColorNum.FOUR).valid.get 0 0 = true ∧
        ¬((('>' : Char) = '>' ∧
            (1:ℚ) * (((0:ℕ):ℚ) - 1/2) + 1 * (((0:ℕ):ℚ) - 1/2) < 0) ∨
          (('>' : Char) = '<' ∧
            0 < (1:ℚ) * (((0:ℕ):ℚ) - 1/2) + 1 * (((0:ℕ):ℚ) - 1/2)))) :=
  (claim_C6_theorem ⟨0, '>', 1, 1⟩ (initRoundingState ColorNum.FOUR) rfl).2
    rfl (by decide) (by decide) 0 0 (by omega) (by omega)

/-- One candidate check preserves `invalidCount + countValid`. -/
theorem checkOne_count (c : BindingConstr) (v1 v2 : ℚ) (b1 b2 : ℕ)
    (hb1 : b1 ≤ 1) (hb2 : b2 ≤ 1) (st : ValidMat × ℕ) :
    (checkOne c v1 v2 b1 b2 st).2 + countValid (checkOne c v1 v2 b1 b2 st).1 =
      st.2 + countValid st.1 := by
  rcases st with ⟨m, n⟩
  simp only [checkOne]
  split
  next hgood =>
    split
    next hviol =>
      have hdrop : countValid (m.invalidate b1 b2) + 1 = countValid m := by
        rcases m with ⟨a, b, a2, d⟩
        interval_cases b1 <;> interval_cases b2 <;>
          simp [ValidMat.get] at hgood <;>
          simp [ValidMat.invalidate, countValid, hgood] <;> omega
      simp only []
      omega
    next => rfl
  next => rfl

/-- The whole candidate loop preserves `invalidCount + countValid`. -/
theorem checkAll_count (c : BindingConstr) (v1 v2 : ℚ) (st : ValidMat × ℕ) :
    (checkAllCandidates c v1 v2 st).2 +
        countValid (checkAllCandidates c v1 v2 st).1 =
      st.2 + countValid st.1 := by
  unfold checkAllCandidates
  rw [checkOne_count c v1 v2 1 1 (by omega) (by omega),
      checkOne_count c v1 v2 1 0 (by omega) (by omega),
      checkOne_count c v1 v2 0 1 (by omega) (by omega),
      checkOne_count c v1 v2 0 0 (by omega) (by omega)]

/-- `processConstr` preserves the scan invariant. -/
theorem processConstr_inv (v1 v2 : ℚ) (s : RoundingState) (c : BindingConstr)
    (h : RoundingInv s) : RoundingInv (processConstr v1 v2 s c) := by
  obtain ⟨h1, h2⟩ := h
  simp only [processConstr]
  split
  · exact ⟨h1, h2⟩
  · split
    · exact ⟨h1, h2⟩
    · split
      · refine ⟨h1, fun hf => ?_⟩
        simp at hf
      · have h5 : (checkAllCandidates c v1 v2 (s.valid, s.invalidCount)).2 +
            countValid (checkAllCandidates c v1 v2 (s.valid, s.invalidCount)).1
              = 4 := by
          rw [checkAll_count c v1 v2 (s.valid, s.invalidCount)]
          exact h1
        split
        next h4 =>
          refine ⟨h5, fun hf => ?_⟩
          simp at hf
        next h4 =>
          have h6 : (checkAllCandidates c v1 v2 (s.valid, s.invalidCount)).2 ≠ 4 := h4
          refine ⟨h5, fun _ => ?_⟩
          show 1 ≤ countValid (checkAllCandidates c v1 v2 (s.valid, s.invalidCount)).1
          omega

/-- The constraint scan preserves the invariant from any start state. -/
theorem foldl_processConstr_inv (v1 v2 : ℚ) (cs : List BindingConstr)
    (s : RoundingState) (h : RoundingInv s) :
    RoundingInv (cs.foldl (processConstr v1 v2) s) := by
  induction cs generalizing s with
  | nil => exact h
  | cons c cs ih => exact ih _ (processConstr_inv v1 v2 s c h)

/-- C7 (amended): whenever all four rounding candidates of a pair are
invalid after the constraint scan, no variable bounds of the pair are
tightened; and in FOUR mode (all four candidates initially valid, so every
invalidation is counted) the `failFlag` is also set. In THREE mode the
pre-invalidated candidate `(1,1)` is not counted by `invalidCount`, so the
scan can end with all four candidates invalid yet `failFlag` unset. -/
theorem claim_C7_theorem (cn : ColorNum) (cs : List BindingConstr) :
    (allInvalid (scanPairConstraints cn cs).valid →
      applyPhase (scanPairConstraints cn cs) = []) ∧
    (cn = ColorNum.FOUR → allInvalid (scanPairConstraints cn cs).valid →
      (scanPairConstraints cn cs).failFlag = true) := by
  constructor
  · rintro ⟨h00, h01, h10, h11⟩
    unfold applyPhase
    split
    · rfl
    · simp [List.filter, ValidMat.get, h00, h01, h10, h11]
  · intro hFOUR hall
    subst hFOUR
    have hinv : RoundingInv (scanPairConstraints ColorNum.FOUR cs) :=
      foldl_processConstr_inv (1/2) (1/2) cs (initRoundingState ColorNum.FOUR)
        (by constructor <;> simp [initRoundingState, countValid])
    obtain ⟨h00, h01, h10, h11⟩ := hall
    obtain ⟨h1, h2⟩ := hinv
    cases hfc : (scanPairConstraints ColorNum.FOUR cs).failFlag
    · have h3 := h2 hfc
      rw [countValid, h00, h01, h10, h11] at h3
      simp at h3
    · rfl

/-- C7 counterexample: in THREE mode, the three binding constraints
`x1 + x2 >= r`, `2*x1 + x2 >= r`, `x1 + 2*x2 >= r` (all with slack 0 and
sense `'>'`) invalidate `(0,0)`, `(0,1)` and `(1,0)` in turn; together
with the pre-invalidated `(1,1)` all four candidates are invalid, yet
`invalidCount` is only 3, so the scan ends with `failFlag = false`,
refuting the claim that the pair is then aborted with `failFlag` set. -/
theorem claim_C7_counterexample :
    allInvalid (scanPairConstraints ColorNum.THREE
      [⟨0, '>', 1, 1⟩, ⟨0, '>', 2, 1⟩, ⟨0, '>', 1, 2⟩]).valid ∧
    (scanPairConstraints ColorNum.THREE
      [⟨0, '>', 1, 1⟩, ⟨0, '>', 2, 1⟩, ⟨0, '>', 1, 2⟩]).failFlag = false := by
  have hne : ('>' : Char) ≠ '<' := by decide
  norm_num [scanPairConstraints, List.foldl, processConstr, initRoundingState,
    initConstrVariableInfo, same_direction, checkAllCandidates, checkOne,
    ValidMat.get, ValidMat.invalidate, roundingViolation, candidateDelta,
    allInvalid, hne]

/-- Witness for C7 (amended) in FOUR mode: four binding `'>'` constraints
with coefficient pairs `(1,1)`, `(0,1)`, `(1,0)`, `(0,-1)` invalidate all
four candidates (the zero coefficients keep every direction check
compatible); the scan sets `failFlag` and the apply phase fixes no
bounds. -/
theorem claim_C7_witness :
    applyPhase (scanPairConstraints ColorNum.FOUR
      [⟨0, '>', 1, 1⟩, ⟨0, '>', 0, 1⟩, ⟨0, '>', 1, 0⟩, ⟨0, '>', 0, -1⟩]) = [] ∧
    (scanPairConstraints ColorNum.FOUR
      [⟨0, '>', 1, 1⟩, ⟨0, '>', 0, 1⟩, ⟨0, '>', 1, 0⟩, ⟨0, '>', 0, -1⟩]).failFlag
      = true := by
  have hall : allInvalid (scanPairConstraints ColorNum.FOUR
      [⟨0, '>', 1, 1⟩, ⟨0, '>', 0, 1⟩, ⟨0, '>', 1, 0⟩, ⟨0, '>', 0, -1⟩]).valid := by
    have hne : ('>' : Char) ≠ '<' := by decide
    have hcn : (ColorNum.FOUR = ColorNum.THREE) = False :=
      eq_false (fun h => ColorNum.noConfusion h)
    norm_num [scanPairConstraints, List.foldl, processConstr, initRoundingState,
      initConstrVariableInfo, same_direction, checkAllCandidates, checkOne,
      ValidMat.get, ValidMat.invalidate, roundingViolation, candidateDelta,
      allInvalid, hne, hcn]
  exact ⟨(claim_C7_theorem ColorNum.FOUR
      [⟨0, '>', 1, 1⟩, ⟨0, '>', 0, 1⟩, ⟨0, '>', 1, 0⟩, ⟨0, '>', 0, -1⟩]).1 hall,
    (claim_C7_theorem ColorNum.FOUR
      [⟨0, '>', 1, 1⟩, ⟨0, '>', 0, 1⟩, ⟨0, '>', 1, 0⟩, ⟨0, '>', 0, -1⟩]).2 rfl hall⟩
